import Mathlib

/-!
Verification of the AIO-SSL-Tool core (src/windows/aio_ssl_tool.py) against its
natural-language specification.  Each Python function relevant to the claims is
shallowly embedded as an executable Lean definition; external collaborators
(the `cryptography` library, the Windows trust store, the IPv6 parser) appear
either as explicit parameters of the embedded functions or as small models that
follow the collaborator's documented behaviour, noted at each definition.
-/

set_option maxRecDepth 8000

namespace AioSsl

/-! ## PEM codec: `load_certificates_from_pem`

The Python source (aio_ssl_tool.py, lines 1548-1557):

    def load_certificates_from_pem(self, data):
        certs = []
        for block in data.split(b'-----END CERTIFICATE-----'):
            if b'-----BEGIN CERTIFICATE-----' in block:
                block += b'-----END CERTIFICATE-----\n'
                try:
                    certs.append(x509.load_pem_x509_certificate(block, default_backend()))
                except:
                    pass
        return certs

Byte strings are modelled as `List Char`.  `pySplit` reproduces Python's
`bytes.split(sep)`: a left-to-right scan for non-overlapping occurrences of the
separator.  `hasSub` reproduces Python's `sep in block` substring test.
`x509.load_pem_x509_certificate` is an external library function and is passed
in as a `parse` parameter. -/

abbrev Str := List Char

def BEGIN_MARK : Str := "-----BEGIN CERTIFICATE-----".toList

def END_MARK : Str := "-----END CERTIFICATE-----".toList

def NL : Str := ['\n']

/-- One step of Python's `bytes.split(sep)` scan.  The `skip` counter consumes
the remaining characters of a separator occurrence that has just been matched,
so that the recursion is structural on the input. -/
def splitAux (sep : Str) : Str → Nat → Str → List Str
  | [], _, acc => [acc]
  | _ :: rest, k + 1, acc => splitAux sep rest k acc
  | c :: rest, 0, acc =>
    if sep.isPrefixOf (c :: rest) then
      acc :: splitAux sep rest (sep.length - 1) []
    else
      splitAux sep rest 0 (acc ++ [c])

/-- Python's `data.split(sep)` for a non-empty separator. -/
def pySplit (sep data : Str) : List Str := splitAux sep data 0 []

/-- Python's substring test `needle in hay`. -/
def hasSub (needle : Str) : Str → Bool
  | [] => needle.isEmpty
  | c :: rest => needle.isPrefixOf (c :: rest) || hasSub needle rest

/-- Model of `load_certificates_from_pem` (lines 1548-1557), with the external PEM/X.509
decoder as the `parse` parameter; the `try ... except: pass` around the decoder
is its `Option` result, and a fragment without the begin marker is skipped. -/
def load_certificates_from_pem {Cert : Type} (parse : Str → Option Cert)
    (data : Str) : List Cert :=
  (pySplit END_MARK data).filterMap fun block =>
    if hasSub BEGIN_MARK block then parse (block ++ END_MARK ++ NL) else none

/-- No occurrence of `sep` starts strictly before the end of `a` in `a ++ sep`:
the terminating marker appended after `a` is the first one the scan can find. -/
def cleanBefore (sep a : Str) : Prop :=
  ∀ i < a.length, ¬ sep <+: (a ++ sep).drop i

/-- No occurrence of `sep` anywhere in `a`. -/
def cleanAll (sep a : Str) : Prop :=
  ∀ i < a.length, ¬ sep <+: a.drop i

instance (sep a : Str) : Decidable (cleanBefore sep a) := by
  unfold cleanBefore; infer_instance

instance (sep a : Str) : Decidable (cleanAll sep a) := by
  unfold cleanAll; infer_instance

lemma splitAux_skip (sep : Str) (u t acc : Str) :
    splitAux sep (u ++ t) u.length acc = splitAux sep t 0 acc := by
  induction u with
  | nil => simp [splitAux]
  | cons c u ih =>
    simpa [splitAux] using ih

lemma prefix_append_iff_of_le {sep x : Str} (b : Str)
    (h : sep.length ≤ x.length) : sep <+: x ++ b ↔ sep <+: x := by
  constructor
  · intro hp
    have h1 : sep = List.take sep.length (x ++ b) := List.prefix_iff_eq_take.mp hp
    rw [List.take_append_of_le_length h] at h1
    exact List.prefix_iff_eq_take.mpr h1
  · intro hp
    exact hp.trans (List.prefix_append x b)

lemma splitAux_clean_append {sep a : Str} (hsep : sep ≠ [])
    (hc : cleanBefore sep a) (b acc : Str) :
    splitAux sep (a ++ sep ++ b) 0 acc = (acc ++ a) :: pySplit sep b := by
  induction a generalizing acc with
  | nil =>
    cases sep with
    | nil => exact absurd rfl hsep
    | cons s ss =>
      have hpre : (s :: ss).isPrefixOf (s :: (ss ++ b)) = true := by
        rw [List.isPrefixOf_iff_prefix]
        simpa using List.prefix_append (s :: ss) b
      show splitAux (s :: ss) (s :: (ss ++ b)) 0 acc = (acc ++ []) :: pySplit (s :: ss) b
      rw [splitAux, if_pos hpre]
      simp only [List.length_cons, Nat.add_sub_cancel]
      rw [splitAux_skip]
      simp [pySplit]
  | cons c a ih =>
    have h0 := hc 0 (by simp)
    simp only [List.drop_zero, List.cons_append] at h0
    have hnpre : ¬ sep.isPrefixOf (c :: (a ++ sep ++ b)) = true := by
      rw [List.isPrefixOf_iff_prefix]
      intro hp
      apply h0
      have : sep <+: (c :: (a ++ sep)) ++ b := by simpa using hp
      exact (prefix_append_iff_of_le b
        (by simp only [List.length_cons, List.length_append]; omega)).mp this
    have hc' : cleanBefore sep a := by
      intro i hi
      have := hc (i + 1) (by simpa using Nat.succ_lt_succ hi)
      simpa using this
    show splitAux sep (c :: (a ++ sep ++ b)) 0 acc = (acc ++ c :: a) :: pySplit sep b
    rw [splitAux, if_neg hnpre, ih hc']
    simp

lemma splitAux_clean_all {sep : Str} (hsep : sep ≠ []) {a : Str}
    (hc : cleanAll sep a) (acc : Str) :
    splitAux sep a 0 acc = [acc ++ a] := by
  induction a generalizing acc with
  | nil => simp [splitAux]
  | cons c a ih =>
    have h0 := hc 0 (by simp)
    simp only [List.drop_zero] at h0
    have hnpre : ¬ sep.isPrefixOf (c :: a) = true := by
      rw [List.isPrefixOf_iff_prefix]; exact h0
    rw [show (c :: a : Str) = c :: a from rfl, splitAux, if_neg hnpre]
    have hc' : cleanAll sep a := by
      intro i hi
      have := hc (i + 1) (by simpa using Nat.succ_lt_succ hi)
      simpa using this
    rw [ih hc']
    simp

lemma pySplit_clean_append {sep a : Str} (hsep : sep ≠ [])
    (hc : cleanBefore sep a) (b : Str) :
    pySplit sep (a ++ sep ++ b) = a :: pySplit sep b := by
  have := splitAux_clean_append hsep hc b []
  simpa [pySplit] using this

lemma pySplit_clean_all {sep a : Str} (hsep : sep ≠ []) (hc : cleanAll sep a) :
    pySplit sep a = [a] := by
  have := splitAux_clean_all hsep hc []
  simpa [pySplit] using this

lemma hasSub_nil_needle (y : Str) : hasSub [] y = true := by
  cases y <;> simp [hasSub]

lemma hasSub_append_self (needle x y : Str) :
    hasSub needle (x ++ needle ++ y) = true := by
  induction x with
  | nil =>
    cases needle with
    | nil => simpa using hasSub_nil_needle y
    | cons n ns =>
      simp only [List.nil_append, List.cons_append, hasSub, Bool.or_eq_true]
      left
      rw [List.isPrefixOf_iff_prefix]
      simpa using List.prefix_append (n :: ns) y
  | cons c x ih =>
    simp only [List.cons_append, hasSub, Bool.or_eq_true]
    right
    simpa using ih

lemma hasSub_cons_of_ne {m n0 : Char} {ms : List Char} (hhead : m ≠ n0)
    {g : Str} (hg : hasSub (m :: ms) g = false) :
    hasSub (m :: ms) (n0 :: g) = false := by
  simp only [hasSub, List.isPrefixOf, Bool.or_eq_false_iff, Bool.and_eq_false_iff]
  exact ⟨Or.inl (by simpa using hhead), hg⟩

/-- One PEM certificate block as it appears in a chain file, together with the
arbitrary garbage text that precedes it and the certificate object its armored
body decodes to. -/
structure PemItem (Cert : Type) where
  junk : Str
  body : Str
  cert : Cert

/-- The characters of one block up to (excluding) its end marker: the
preceding garbage, the begin marker, and the armored body on its own lines. -/
def pemChunk (junk body : Str) : Str :=
  junk ++ BEGIN_MARK ++ NL ++ body ++ NL

/-- A byte blob interleaving garbage text with complete PEM certificate
blocks, and trailing garbage after the last block. -/
def renderPem {Cert : Type} (items : List (PemItem Cert)) (tail : Str) : Str :=
  items.foldr (fun it acc => pemChunk it.junk it.body ++ END_MARK ++ acc) tail

lemma load_renderPem_nil {Cert : Type} (parse : Str → Option Cert) {tail : Str}
    (hAll : cleanAll END_MARK tail) (hB : hasSub BEGIN_MARK tail = false) :
    load_certificates_from_pem parse (renderPem ([] : List (PemItem Cert)) tail) = [] := by
  unfold load_certificates_from_pem renderPem
  rw [List.foldr_nil, pySplit_clean_all (by decide) hAll]
  simp [hB]

lemma load_renderPem_cons {Cert : Type} (parse : Str → Option Cert)
    (it : PemItem Cert) (items : List (PemItem Cert)) (tail : Str)
    (hcb : cleanBefore END_MARK (pemChunk it.junk it.body))
    (hp : parse (pemChunk it.junk it.body ++ END_MARK ++ NL) = some it.cert) :
    load_certificates_from_pem parse (renderPem (it :: items) tail) =
      it.cert :: load_certificates_from_pem parse (renderPem items tail) := by
  unfold load_certificates_from_pem renderPem
  rw [List.foldr_cons]
  rw [show pemChunk it.junk it.body ++ END_MARK ++
        List.foldr (fun it acc => pemChunk it.junk it.body ++ END_MARK ++ acc) tail items =
      pemChunk it.junk it.body ++ END_MARK ++
        List.foldr (fun it acc => pemChunk it.junk it.body ++ END_MARK ++ acc) tail items
    from rfl]
  rw [pySplit_clean_append (by decide) hcb]
  rw [List.filterMap_cons]
  have hB : hasSub BEGIN_MARK (pemChunk it.junk it.body) = true := by
    unfold pemChunk
    have := hasSub_append_self BEGIN_MARK it.junk (NL ++ it.body ++ NL)
    simpa [List.append_assoc] using this
  simp only [hB, if_pos, hp]

/-- C4 helper: `decode_all` on interleaved garbage and N well-formed blocks yields the N
certificates in order.  Hypotheses: each block's leading garbage and armored
body contain no premature end marker (`cleanBefore`), the library decoder
(`parse`) recovers the block's certificate from the fragment the code hands it
(the fragment with the end marker re-appended), and the trailing garbage
contains neither marker. -/
theorem load_renderPem {Cert : Type} (parse : Str → Option Cert)
    (items : List (PemItem Cert)) (tail : Str)
    (hcb : ∀ it ∈ items, cleanBefore END_MARK (pemChunk it.junk it.body))
    (hp : ∀ it ∈ items, parse (pemChunk it.junk it.body ++ END_MARK ++ NL) = some it.cert)
    (hAll : cleanAll END_MARK tail) (hB : hasSub BEGIN_MARK tail = false) :
    load_certificates_from_pem parse (renderPem items tail) =
      items.map PemItem.cert := by
  induction items with
  | nil => simpa using load_renderPem_nil parse hAll hB
  | cons it items ih =>
    rw [load_renderPem_cons parse it items tail (hcb it (by simp))
      (hp it (by simp))]
    rw [ih (fun x hx => hcb x (by simp [hx])) (fun x hx => hp x (by simp [hx]))]
    simp

/-- C4: For every byte input formed by concatenating N valid PEM certificate
blocks with arbitrary interleaved garbage text, `decode_all`
(`load_certificates_from_pem`) returns exactly those N certificates in their
original order; on an empty or all-garbage input (the N = 0 case) it returns
an empty sequence, and being a total function it never fails outright.
Hypotheses: the garbage and the armored bodies contain no stray end marker
(`cleanBefore`/`cleanAll` — garbage containing the PEM armor markers could
masquerade as blocks, so any reading of "garbage" must exclude them), the
trailing garbage contains no begin marker, and the external X.509 decoder
`parse` recovers each block's certificate from the fragment the code hands it. -/
theorem c4_decode_all_interleaved {Cert : Type} (parse : Str → Option Cert)
    (items : List (PemItem Cert)) (tail : Str)
    (hcb : ∀ it ∈ items, cleanBefore END_MARK (pemChunk it.junk it.body))
    (hp : ∀ it ∈ items, parse (pemChunk it.junk it.body ++ END_MARK ++ NL) = some it.cert)
    (hAll : cleanAll END_MARK tail) (hB : hasSub BEGIN_MARK tail = false) :
    load_certificates_from_pem parse (renderPem items tail) =
      items.map PemItem.cert :=
  load_renderPem parse items tail hcb hp hAll hB

def toyItem1 : PemItem Nat := ⟨"some garbage\n".toList, "AAAA".toList, 10⟩

def toyItem2 : PemItem Nat := ⟨"\nmore garbage\n".toList, "BBBB".toList, 20⟩

def toyTail : Str := "\ntrailing junk".toList

def toyParse (s : Str) : Option Nat :=
  if s = pemChunk toyItem1.junk toyItem1.body ++ END_MARK ++ NL then some 10
  else if s = pemChunk toyItem2.junk toyItem2.body ++ END_MARK ++ NL then some 20
  else none

/-- Witness for C4 at a concrete two-block input with interleaved garbage. -/
theorem c4_decode_all_interleaved_witness :
    load_certificates_from_pem toyParse
      (renderPem [toyItem1, toyItem2] toyTail) = [10, 20] :=
  c4_decode_all_interleaved toyParse [toyItem1, toyItem2] toyTail
    (by decide) (by decide) (by decide) (by decide)

/-! ## Chain resolution engine: `_build_chain_thread`

The Python source (lines 1307-1330), stripped of file and queue I/O:

    certs = self.load_certificates_from_pem(data)
    if not certs:
        raise ValueError("No valid certificate found")
    chain = certs.copy()
    current = chain[-1]
    while not self.is_self_signed(current):
        issuer = self.fetch_issuer_from_windows(current)
        if not issuer:
            break
        if issuer not in chain:
            chain.append(issuer)
        current = issuer

`build_chain_start` models the part before the loop; `build_chain_loop`
models the `while` loop with an explicit fuel bound, returning `none` when the
fuel runs out before the loop exits (so `∀ fuel, ... = none` states that the
loop never terminates). -/

inductive ChainErr where
  | noCertificateFound
deriving DecidableEq

/-- The `Start → HaveCurrent` step of the resolution run: decode the input,
fail when nothing decoded, otherwise chain := all decoded certificates and
current := the last element (`chain[-1]`). -/
def build_chain_start {Cert : Type} (parse : Str → Option Cert) (data : Str) :
    Except ChainErr (List Cert × Cert) :=
  match load_certificates_from_pem parse data with
  | [] => .error .noCertificateFound
  | c :: rest => .ok (c :: rest, (c :: rest).getLast (List.cons_ne_nil c rest))

/-- C9: chain resolution fails with `NoCertificateFound` exactly when decoding
the leaf input yields zero certificates; otherwise the initial chain is the
full decoded sequence and the traversal's current certificate is its last
element. -/
theorem c9_chain_start {Cert : Type} (parse : Str → Option Cert) (data : Str) :
    (build_chain_start parse data = .error .noCertificateFound ↔
      load_certificates_from_pem parse data = []) ∧
    (∀ c rest, load_certificates_from_pem parse data = c :: rest →
      build_chain_start parse data =
        .ok (c :: rest, (c :: rest).getLast (List.cons_ne_nil c rest))) := by
  constructor
  · unfold build_chain_start
    rcases h : load_certificates_from_pem parse data with _ | ⟨c, rest⟩ <;> simp
  · intro c rest h
    unfold build_chain_start
    rw [h]

/-- Witness for C9: a one-block leaf file decodes to `[10]`, the run reaches
`HaveCurrent` with the full sequence as chain and `10` as current. -/
theorem c9_chain_start_witness :
    build_chain_start toyParse (renderPem [toyItem1] toyTail) = .ok ([10], 10) :=
  (c9_chain_start toyParse (renderPem [toyItem1] toyTail)).2 10 [] (by decide)

/-- Certificate as seen by the chain walker: its subject and issuer
distinguished names (abstracted to `Nat`).  Equality is the structural
equality the `cryptography` library gives Python's `==`/`in`. -/
structure CertC where
  subject : Nat
  issuer : Nat
deriving DecidableEq

/-- Model of `is_self_signed` (line 1558): `cert.issuer == cert.subject`. -/
def is_self_signed (c : CertC) : Bool := c.issuer == c.subject

/-- Model of `fetch_issuer_from_windows` (lines 1586-1601) with the OS store and the
signature verifier as collaborators: the first store certificate whose subject
equals `cert`'s issuer and which verifies `cert`'s signature. -/
def fetch_issuer_from_store (store : List CertC) (verify : CertC → CertC → Bool)
    (cert : CertC) : Option CertC :=
  store.find? fun issuer => issuer.subject == cert.issuer && verify cert issuer

/-- The `while not self.is_self_signed(current)` loop of `_build_chain_thread`
(lines 1317-1323) with an explicit fuel bound: `none` means the loop has not
exited within `fuel` iterations.  Note the source updates
`current = issuer` unconditionally; only the append is guarded by
`if issuer not in chain`. -/
def build_chain_loop (store : List CertC) (verify : CertC → CertC → Bool) :
    Nat → List CertC → CertC → Option (List CertC)
  | 0, _, _ => none
  | fuel + 1, chain, current =>
    if is_self_signed current then some chain
    else
      match fetch_issuer_from_store store verify current with
      | none => some chain
      | some issuer =>
          build_chain_loop store verify fuel
            (if issuer ∈ chain then chain else chain ++ [issuer]) issuer

/-- A, whose issuer lookup yields B. -/
def certA : CertC := ⟨0, 1⟩

/-- B, whose issuer lookup yields back A; neither certificate self-signed. -/
def certB : CertC := ⟨1, 0⟩

/-- The cyclic trust store of the claim's scenario. -/
def cyclicStore : List CertC := [certA, certB]

/-- The scenario's verifier: every candidate issuer verifies. -/
def acceptAll : CertC → CertC → Bool := fun _ _ => true

lemma build_chain_loop_cycle (fuel : Nat) :
    build_chain_loop cyclicStore acceptAll fuel [certA, certB] certA = none ∧
    build_chain_loop cyclicStore acceptAll fuel [certA, certB] certB = none := by
  induction fuel with
  | zero => exact ⟨rfl, rfl⟩
  | succ n ih => exact ⟨ih.2, ih.1⟩

/-- C1 (code bug): on the cyclic trust store (A's issuer lookup yields B, B's
yields back A, neither self-signed) the resolution loop never terminates: for
every iteration bound the loop is still running.  The membership guard keeps
the chain at `[A, B]`, but `current = issuer` is executed unconditionally and
the loop never breaks, alternating between A and B forever — there is no
transition to `Exhausted`. -/
theorem c1_cycle_nonterminating (fuel : Nat) :
    build_chain_loop cyclicStore acceptAll fuel [certA] certA = none := by
  cases fuel with
  | zero => rfl
  | succ n => exact (build_chain_loop_cycle n).2

/-! ## Key & Request Generator: `generate_csr_from_data`

Key generation (lines 1134-1146):

    if key_type == "RSA":
        key = rsa.generate_private_key(65537, key_size, default_backend())
    else:  # ECC
        curve_map = {"P-256": ec.SECP256R1(), "P-384": ec.SECP384R1(), "P-521": ec.SECP521R1()}
        curve = curve_map.get(ecc_curve, ec.SECP256R1())
        key = ec.generate_private_key(curve, default_backend())
-/

inductive Curve where
  | P256
  | P384
  | P521
deriving DecidableEq

inductive GeneratedKey where
  | rsaKey (bits : Nat)
  | eccKey (curve : Curve)
deriving DecidableEq

inductive PyError where
  | valueError
deriving DecidableEq

/-- The dictionary `curve_map` of line 1140: name → curve, no other entries. -/
def curve_map (s : String) : Option Curve :=
  if s = "P-256" then some .P256
  else if s = "P-384" then some .P384
  else if s = "P-521" then some .P521
  else none

/-- Model of `rsa.generate_private_key(65537, key_size)` of the `cryptography` library:
the library itself only rejects key sizes below 512 bits (and bad public
exponents; the call site fixes 65537); any size ≥ 512 is generated as asked. -/
def rsa_generate_private_key (key_size : Nat) : Except PyError GeneratedKey :=
  if key_size < 512 then .error .valueError else .ok (.rsaKey key_size)

/-- The key-generation step of `generate_csr_from_data` (lines 1136-1146):
any `key_type` other than `"RSA"` takes the ECC branch, and the curve is
looked up with `curve_map.get(ecc_curve, ec.SECP256R1())` — an unknown curve
name silently falls back to P-256. -/
def generate_key (key_type : String) (key_size : Nat) (ecc_curve : String) :
    Except PyError GeneratedKey :=
  if key_type = "RSA" then rsa_generate_private_key key_size
  else .ok (.eccKey ((curve_map ecc_curve).getD .P256))

/-- Counterexample to C3: a key-generation request with the ECC curve name
`"P-999"` — outside the enumerated set {P-256, P-384, P-521} — does not fail;
it silently produces a P-256 key with substituted parameters. -/
theorem c3_unknown_curve_counterexample :
    generate_key "ECC" 2048 "P-999" = .ok (.eccKey .P256) := rfl

/-- C3 (amended): key generation never fails with an unsupported-parameter
error.  An ECC curve name outside the enumerated set silently falls back to a
P-256 key, and an RSA bit length outside the enumerated set is passed to the
RSA generator unchanged (the only rejection is the library's own
`key_size ≥ 512` check). -/
theorem c3_no_parameter_validation :
    (∀ bits curve, curve_map curve = none →
      generate_key "ECC" bits curve = .ok (.eccKey .P256)) ∧
    (∀ bits curve, 512 ≤ bits →
      generate_key "RSA" bits curve = .ok (.rsaKey bits)) := by
  constructor
  · intro bits curve h
    simp [generate_key, h]
  · intro bits curve h
    simp [generate_key, rsa_generate_private_key, Nat.not_lt.mpr h]

/-- Witness for the amended C3: an out-of-set curve name yields a substituted
P-256 key, and the out-of-set RSA length 1024 is generated as asked. -/
theorem c3_no_parameter_validation_witness :
    generate_key "ECC" 4096 "P-192" = .ok (.eccKey .P256) ∧
    generate_key "RSA" 1024 "P-256" = .ok (.rsaKey 1024) :=
  ⟨c3_no_parameter_validation.1 4096 "P-192" rfl,
   c3_no_parameter_validation.2 1024 "P-256" (by decide)⟩

/-! ## Subject DN construction (lines 1148-1160)

    attrs = []
    for oid, val in [
        (NameOID.COUNTRY_NAME, data.get("Country")), ...,
        (NameOID.EMAIL_ADDRESS, data.get("Email Address (Optional)"))
    ]:
        if val:
            attrs.append(x509.NameAttribute(oid, val))
    subject = x509.Name(attrs or [x509.NameAttribute(NameOID.COMMON_NAME, "default")])

`data.get(k)` is `none` for an absent key; `if val:` is false for `None` and
for the empty string. -/

inductive DnOid where
  | countryName
  | stateOrProvinceName
  | localityName
  | organizationName
  | organizationalUnitName
  | commonName
  | emailAddress
deriving DecidableEq, Fintype

/-- The DN dictionary handed to `generate_csr_from_data`: each key either
absent (`none`) or present with a string value. -/
structure CsrData where
  country : Option String
  state_province : Option String
  locality : Option String
  organization : Option String
  organizational_unit : Option String
  common_name : Option String
  email : Option String

/-- One iteration of the attribute loop: the attribute is kept only when the
value is truthy (present and non-empty). -/
def optAttr (oid : DnOid) (v : Option String) : List (DnOid × String) :=
  match v with
  | none => []
  | some s => if s = "" then [] else [(oid, s)]

/-- The `attrs` list, in the source's iteration order. -/
def dn_attrs (d : CsrData) : List (DnOid × String) :=
  optAttr .countryName d.country ++
    optAttr .stateOrProvinceName d.state_province ++
    optAttr .localityName d.locality ++
    optAttr .organizationName d.organization ++
    optAttr .organizationalUnitName d.organizational_unit ++
    optAttr .commonName d.common_name ++
    optAttr .emailAddress d.email

/-- Model of `x509.Name(attrs or [NameAttribute(COMMON_NAME, "default")])`. -/
def build_subject (d : CsrData) : List (DnOid × String) :=
  if dn_attrs d = [] then [(.commonName, "default")] else dn_attrs d

/-- The dictionary lookup by attribute kind. -/
def fieldOf (d : CsrData) : DnOid → Option String
  | .countryName => d.country
  | .stateOrProvinceName => d.state_province
  | .localityName => d.locality
  | .organizationName => d.organization
  | .organizationalUnitName => d.organizational_unit
  | .commonName => d.common_name
  | .emailAddress => d.email

/-- A field that Python's `if val:` skips: absent or the empty string. -/
def pyFalsy (v : Option String) : Prop := v = none ∨ v = some ""

instance (v : Option String) : Decidable (pyFalsy v) := by
  unfold pyFalsy; infer_instance

/-- Every supplied DN field is empty or absent. -/
def allEmpty (d : CsrData) : Prop := ∀ oid, pyFalsy (fieldOf d oid)

instance (d : CsrData) : Decidable (allEmpty d) := by
  unfold allEmpty
  exact Fintype.decidableForallFintype (α := DnOid)

lemma mem_optAttr {o o' : DnOid} {s : String} {v : Option String} :
    (o, s) ∈ optAttr o' v ↔ o = o' ∧ v = some s ∧ s ≠ "" := by
  cases v with
  | none => simp [optAttr]
  | some t =>
    by_cases h : t = "" <;>
      simp [optAttr, h, and_comm, and_assoc, eq_comm (a := t)] <;>
      aesop

lemma mem_dn_attrs {d : CsrData} {o : DnOid} {s : String} :
    (o, s) ∈ dn_attrs d ↔ fieldOf d o = some s ∧ s ≠ "" := by
  cases o <;>
    simp [dn_attrs, List.mem_append, mem_optAttr, fieldOf]

lemma dn_attrs_nil_iff {d : CsrData} : dn_attrs d = [] ↔ allEmpty d := by
  constructor
  · intro h oid
    by_contra hne
    have hv : ∃ s, fieldOf d oid = some s ∧ s ≠ "" := by
      rcases hf : fieldOf d oid with _ | s
      · exact absurd (Or.inl rfl) (hf ▸ hne)
      · refine ⟨s, rfl, ?_⟩
        rintro rfl
        exact hne (Or.inr hf)
    rcases hv with ⟨s, hs, hne'⟩
    have : (oid, s) ∈ dn_attrs d := mem_dn_attrs.mpr ⟨hs, hne'⟩
    simp [h] at this
  · intro h
    rcases he : dn_attrs d with _ | ⟨⟨o, s⟩, rest⟩
    · rfl
    · have : (o, s) ∈ dn_attrs d := by simp [he]
      rcases mem_dn_attrs.mp this with ⟨hf, hne⟩
      rcases h o with h' | h' <;> rw [h'] at hf
      · exact absurd hf (by simp)
      · exact absurd (Option.some.inj hf) (by simpa using hne.symm)

/-- C8: DN fields whose values are empty or absent are omitted from the built
subject (a pair belongs to it iff the field is present and non-empty), when
all supplied fields are empty the subject is exactly the single CommonName
attribute `"default"`, and the subject is never empty. -/
theorem c8_dn_fallback (d : CsrData) :
    build_subject d ≠ [] ∧
    (allEmpty d → build_subject d = [(.commonName, "default")]) ∧
    (¬ allEmpty d → ∀ o s, (o, s) ∈ build_subject d ↔
      fieldOf d o = some s ∧ s ≠ "") := by
  refine ⟨?_, ?_, ?_⟩
  · unfold build_subject
    split <;> simp_all
  · intro h
    unfold build_subject
    rw [if_pos (dn_attrs_nil_iff.mpr h)]
  · intro h o s
    unfold build_subject
    rw [if_neg (fun hnil => h (dn_attrs_nil_iff.mp hnil))]
    exact mem_dn_attrs

/-- Witness for C8: with every field empty or absent the subject falls back to
CommonName "default"; with a lone Organization the empty CommonName is
omitted and the Organization kept. -/
theorem c8_dn_fallback_witness :
    build_subject ⟨none, some "", none, none, none, some "", none⟩ =
      [(.commonName, "default")] ∧
    ((DnOid.organizationName, "ACME") ∈
        build_subject ⟨none, none, none, some "ACME", none, some "", none⟩ ↔
      fieldOf ⟨none, none, none, some "ACME", none, some "", none⟩
          .organizationName = some "ACME" ∧ "ACME" ≠ "") :=
  ⟨(c8_dn_fallback ⟨none, some "", none, none, none, some "", none⟩).2.1
      (by decide),
   (c8_dn_fallback ⟨none, none, none, some "ACME", none, some "", none⟩).2.2
      (by decide) .organizationName "ACME"⟩

/-! ## SAN classification and extensions (lines 1163-1195)

    if sans:
        san_list = []
        for s in sans:
            try:
                ip = ipaddress.ip_address(s.strip())
                san_list.append(x509.IPAddress(ip))
            except ValueError:
                san_list.append(x509.DNSName(s.strip()))
        builder = builder.add_extension(x509.SubjectAlternativeName(san_list), critical=False)
    builder = builder.add_extension(x509.KeyUsage(digital_signature=True,
        key_encipherment=True, content_commitment=False, data_encipherment=False,
        key_agreement=False, key_cert_sign=False, crl_sign=False,
        encipher_only=False, decipher_only=False), critical=True)
    builder = builder.add_extension(x509.ExtendedKeyUsage([SERVER_AUTH, CLIENT_AUTH]),
        critical=False)

`ipaddress.ip_address` first tries `IPv4Address`, then `IPv6Address`, and
raises `ValueError` when both fail.  The IPv4 grammar is embedded faithfully
(exactly four dot-separated decimal octets, one to three digits, no leading
zeros, value at most 255); the IPv6 parser is an external parameter of the
embedding. -/

/-- Python's `str.strip()` (whitespace at both ends). -/
def pyStrip (s : Str) : Str :=
  ((s.dropWhile isWs).reverse.dropWhile isWs).reverse
where
  isWs (c : Char) : Bool :=
    c == ' ' || c == '\t' || c == '\n' || c == '\r' || c == '\x0b' || c == '\x0c'

/-- One dotted-quad octet, per `ipaddress._parse_octet`: one to three ASCII
digits, no leading zero, at most 255. -/
def parse_octet : Str → Option Nat
  | [] => none
  | c :: rest =>
    let cs := c :: rest
    if ¬ cs.all Char.isDigit then none
    else if 3 < cs.length then none
    else if c = '0' ∧ rest ≠ [] then none
    else
      let n := cs.foldl (fun acc d => 10 * acc + (d.toNat - 48)) 0
      if n ≤ 255 then some n else none

/-- Model of `ipaddress.IPv4Address(s)`: exactly four octets separated by dots. -/
def parse_ipv4 (s : Str) : Option (Nat × Nat × Nat × Nat) :=
  match pySplit ['.'] s with
  | [a, b, c, d] =>
    match parse_octet a, parse_octet b, parse_octet c, parse_octet d with
    | some x, some y, some z, some w => some (x, y, z, w)
    | _, _, _, _ => none
  | _ => none

/-- An IP literal as classified by `ipaddress.ip_address`. -/
inductive IpLit where
  | v4 (q : Nat × Nat × Nat × Nat)
  | v6 (h : Nat)
deriving DecidableEq

/-- Model of `ipaddress.ip_address(s)`: IPv4 first, IPv6 (the external `ipv6`
collaborator) as fallback, `none` for the `ValueError` case. -/
def ip_address (ipv6 : Str → Option Nat) (s : Str) : Option IpLit :=
  match parse_ipv4 s with
  | some q => some (.v4 q)
  | none => (ipv6 s).map .v6

/-- A SubjectAlternativeName entry. -/
inductive San where
  | ipAddress (ip : IpLit)
  | dnsName (s : Str)
deriving DecidableEq

/-- The per-string classification of the SAN loop body. -/
def sanClassify (ipv6 : Str → Option Nat) (s : Str) : San :=
  match ip_address ipv6 (pyStrip s) with
  | some ip => .ipAddress ip
  | none => .dnsName (pyStrip s)

/-- The `san_list` built by the loop, in input order. -/
def build_san_list (ipv6 : Str → Option Nat) (sans : List Str) : List San :=
  sans.map (sanClassify ipv6)

/-- The KeyUsage bit set of lines 1179-1189. -/
structure KeyUsageBits where
  digital_signature : Bool
  key_encipherment : Bool
  content_commitment : Bool
  data_encipherment : Bool
  key_agreement : Bool
  key_cert_sign : Bool
  crl_sign : Bool
  encipher_only : Bool
  decipher_only : Bool
deriving DecidableEq

inductive EkuOid where
  | serverAuth
  | clientAuth
deriving DecidableEq

inductive ExtensionVal where
  | san (entries : List San)
  | keyUsage (bits : KeyUsageBits)
  | extendedKeyUsage (oids : List EkuOid)
deriving DecidableEq

structure Extension where
  val : ExtensionVal
  critical : Bool
deriving DecidableEq

/-- The extensions added by `generate_csr_from_data`, in order: the SAN
extension only when `sans` is non-empty (critical=False), then KeyUsage
(critical=True), then ExtendedKeyUsage (critical=False). -/
def csr_extensions (ipv6 : Str → Option Nat) (sans : List Str) : List Extension :=
  (if sans ≠ [] then [⟨.san (build_san_list ipv6 sans), false⟩] else []) ++
    [⟨.keyUsage ⟨true, true, false, false, false, false, false, false, false⟩, true⟩,
     ⟨.extendedKeyUsage [.serverAuth, .clientAuth], false⟩]

/-- C7: every SAN string that parses as an IPv4 or IPv6 literal becomes an
IPAddress entry and every other becomes a DNSName entry, position by position
(so input order is preserved); the concrete pair
["www.example.com", "203.0.113.5"] yields one DNSName followed by one
IPv4Address (given that the external IPv6 parser rejects the host name, which
contains no colon); and every KeyUsage extension of the request is critical.
-/
theorem c7_san_classification (ipv6 : Str → Option Nat) (sans : List Str)
    (i : Nat) (sans' : List Str) (ku : KeyUsageBits) (crit : Bool)
    (h6 : ipv6 "www.example.com".toList = none)
    (hku : Extension.mk (.keyUsage ku) crit ∈ csr_extensions ipv6 sans') :
    ((build_san_list ipv6 sans)[i]? = (sans[i]?).map (sanClassify ipv6)) ∧
    build_san_list ipv6 ["www.example.com".toList, "203.0.113.5".toList] =
      [.dnsName "www.example.com".toList, .ipAddress (.v4 (203, 0, 113, 5))] ∧
    crit = true := by
  refine ⟨?_, ?_, ?_⟩
  · simp [build_san_list]
  · have hstrip : pyStrip "www.example.com".toList = "www.example.com".toList := by
      decide
    have hB : sanClassify ipv6 "www.example.com".toList =
        .dnsName "www.example.com".toList := by
      unfold sanClassify ip_address
      rw [hstrip, show parse_ipv4 "www.example.com".toList =
        none from by decide, h6]
      rfl
    have hC : sanClassify ipv6 "203.0.113.5".toList =
        .ipAddress (.v4 (203, 0, 113, 5)) := by
      unfold sanClassify ip_address
      rw [show parse_ipv4 (pyStrip "203.0.113.5".toList) =
        some (203, 0, 113, 5) from by decide]
    unfold build_san_list
    rw [List.map_cons, List.map_cons, List.map_nil, hB, hC]
  · rcases List.mem_append.mp hku with h | h
    · rcases em (sans' = []) with he | he <;> simp [he] at h
    · rw [List.mem_cons] at h
      rcases h with h | h
      · exact congrArg Extension.critical h
      · rw [List.mem_singleton] at h
        exact absurd (congrArg Extension.val h) (by simp)

/-- Witness for C7 at the concrete inputs of the claim. -/
theorem c7_san_classification_witness :
    (build_san_list (fun _ => none)
        ["www.example.com".toList, "203.0.113.5".toList])[0]? =
      some (.dnsName "www.example.com".toList) ∧
    build_san_list (fun _ => none)
        ["www.example.com".toList, "203.0.113.5".toList] =
      [.dnsName "www.example.com".toList, .ipAddress (.v4 (203, 0, 113, 5))] := by
  have h := c7_san_classification (fun _ => none)
    ["www.example.com".toList, "203.0.113.5".toList] 0
    ["www.example.com".toList]
    ⟨true, true, false, false, false, false, false, false, false⟩ true
    rfl (by decide)
  refine ⟨?_, h.2.1⟩
  rw [h.1]
  decide

/-! ## Signature Verifier: `verify_signature` (lines 1560-1570)

    def verify_signature(self, child, parent):
        try:
            parent.public_key().verify(
                child.signature,
                child.tbs_certificate_bytes,
                padding.PKCS1v15() if isinstance(parent.public_key(), rsa.RSAPublicKey)
                    else padding.PSS(mgf=padding.PSS.MGF1(hashes.SHA256()),
                                     salt_length=padding.PSS.MAX_LENGTH),
                child.signature_hash_algorithm
            )
            return True
        except:
            return False

The call passes four positional arguments (signature, data, padding, hash) to
`public_key().verify` for every key kind.  In the `cryptography` library,
`RSAPublicKey.verify(signature, data, padding, algorithm)` takes those four;
`EllipticCurvePublicKey.verify(signature, data, signature_algorithm)` takes
only three, so for an EC issuer key the call itself raises `TypeError`
(an extra positional argument) before any cryptography runs, and the bare
`except:` turns it into `False`. -/

inductive Padding where
  | pkcs1v15
  | pssMgf1Sha256MaxLen
deriving DecidableEq

inductive PyExc where
  | typeError
  | invalidSignature
deriving DecidableEq

/-- A certificate's public key: RSA or elliptic-curve, with abstract key
material. -/
inductive PubKeyV where
  | rsa (k : Nat)
  | ec (k : Nat)
deriving DecidableEq

/-- A certificate as the verifier sees it: signature bytes, to-be-signed
bytes, declared signature hash, and the public key. -/
structure CertV where
  signature : Nat
  tbs_certificate_bytes : Nat
  signature_hash_algorithm : Nat
  pub : PubKeyV
deriving DecidableEq

/-- The padding argument built at the call site: PKCS1v15 for RSA keys, PSS
otherwise. -/
def padding_for (pk : PubKeyV) : Padding :=
  match pk with
  | .rsa _ => .pkcs1v15
  | .ec _ => .pssMgf1Sha256MaxLen

/-- The library's `public_key().verify(...)` receiving the call site's four
positional arguments.  `rsaValid` is the external RSA verification predicate;
an EC key's three-parameter method raises `TypeError` on the four-argument
call, so no EC verification predicate is ever consulted. -/
def public_key_verify (rsaValid : Nat → Nat → Nat → Padding → Nat → Bool)
    (pk : PubKeyV) (sig tbs : Nat) (pad : Padding) (alg : Nat) :
    Except PyExc Unit :=
  match pk with
  | .rsa k => if rsaValid k sig tbs pad alg then .ok () else .error .invalidSignature
  | .ec _ => .error .typeError

/-- Model of `verify_signature` (lines 1560-1570): the `try/except` returning
`True`/`False`. -/
def verify_signature (rsaValid : Nat → Nat → Nat → Padding → Nat → Bool)
    (child parent : CertV) : Bool :=
  match public_key_verify rsaValid parent.pub child.signature
      child.tbs_certificate_bytes (padding_for parent.pub)
      child.signature_hash_algorithm with
  | .ok _ => true
  | .error _ => false

/-- C2 (code bug): for a candidate issuer whose public key is an
elliptic-curve key, `verify_signature` returns `false` unconditionally — even
when the child's signature is a valid ECDSA signature by that key (any ECDSA
validity predicate `ecdsaValid` the curve provides is never consulted).  The
four-positional-argument call raises `TypeError` inside the bare `except:`,
so the declared ECDSA verification never runs. -/
theorem c2_ec_verify_always_false
    (rsaValid : Nat → Nat → Nat → Padding → Nat → Bool)
    (ecdsaValid : Nat → Nat → Nat → Nat → Bool)
    (child parent : CertV) (k : Nat) (hk : parent.pub = .ec k)
    (hvalid : ecdsaValid k child.signature child.tbs_certificate_bytes
      child.signature_hash_algorithm = true) :
    verify_signature rsaValid child parent = false := by
  unfold verify_signature public_key_verify
  rw [hk]

/-- Witness for C2: a concrete EC issuer with a signature every ECDSA
predicate accepts is still rejected. -/
theorem c2_ec_verify_always_false_witness :
    verify_signature (fun _ _ _ _ _ => true) ⟨5, 6, 7, .rsa 1⟩ ⟨8, 9, 10, .ec 3⟩ =
      false :=
  c2_ec_verify_always_false (fun _ _ _ _ _ => true) (fun _ _ _ _ => true)
    ⟨5, 6, 7, .rsa 1⟩ ⟨8, 9, 10, .ec 3⟩ 3 rfl rfl

/-! ## Container Assembler: `create_pfx_advanced` / `extract_key`

`create_pfx_advanced` (lines 1418-1468), stripped of file dialogs:

    if not pfx_password:
        messagebox.showerror("Error", "Please enter a password for the PFX file")
        return
    ... (load key, load chain) ...
    certs = self.load_certificates_from_pem(chain_data)
    if not certs: ... return
    pfx_data = pkcs12.serialize_key_and_certificates(
        name=b"SSL Certificate", key=key, cert=certs[0],
        cas=certs[1:] if len(certs) > 1 else None,
        encryption_algorithm=serialization.BestAvailableEncryption(pfx_password.encode()))

`extract_key` (lines 1061-1107), stripped of file dialogs:

    private_key, _, _ = pkcs12.load_key_and_certificates(
        pfx_data, password.encode() if password else None, default_backend())
    if private_key is None:
        raise ValueError("No private key found in PFX file")
    pem_key = private_key.private_bytes(serialization.Encoding.PEM,
        serialization.PrivateFormat.PKCS8, serialization.NoEncryption())

The PKCS#12 container is modelled as the structure the library packs; the
library's loader opens it when the supplied password matches, where — per
OpenSSL's documented PKCS#12 convention, which `cryptography` wraps — a NULL
(absent) password and an empty password are interchangeable. -/

inductive PfxEncryption where
  | bestAvailable (password : String)
  | noEncryption
deriving DecidableEq

/-- The PKCS#12 container `pkcs12.serialize_key_and_certificates` packs:
friendly name, optional key, optional leaf, optional CA list, and the
encryption it was serialized under. -/
structure Pkcs12Container (K C : Type) where
  name : String
  key : Option K
  cert : Option C
  cas : Option (List C)
  encryption : PfxEncryption
deriving DecidableEq

inductive LoadErr where
  | decryptionFailed
deriving DecidableEq

/-- OpenSSL's password normalization: absent and empty passwords are
interchangeable when verifying the container MAC. -/
def normalizePwd : Option String → Option String
  | none => none
  | some p => if p = "" then none else some p

/-- Model of `pkcs12.load_key_and_certificates(data, pwd)`: succeeds and returns the
packed contents when the supplied password matches the one the container was
serialized under, raises (`DecryptionFailed`) otherwise. -/
def load_key_and_certificates {K C : Type} (c : Pkcs12Container K C)
    (pwd : Option String) :
    Except LoadErr (Option K × Option C × Option (List C)) :=
  let required :=
    match c.encryption with
    | .bestAvailable p => normalizePwd (some p)
    | .noEncryption => none
  if normalizePwd pwd = required then .ok (c.key, c.cert, c.cas)
  else .error .decryptionFailed

inductive PfxErr where
  | missingPassphrase
  | noCertificates
deriving DecidableEq

/-- Model of `create_pfx_advanced` (lines 1418-1468) on already-loaded inputs: the
passphrase emptiness check (line 1433) precedes everything else; an empty
decoded chain is rejected; otherwise the container is serialized under
`BestAvailableEncryption(pfx_password)`. -/
def create_pfx_advanced {K C : Type} (key : K) (certs : List C)
    (pfx_password : String) : Except PfxErr (Pkcs12Container K C) :=
  if pfx_password = "" then .error .missingPassphrase
  else if certs.isEmpty then .error .noCertificates
  else
    .ok { name := "SSL Certificate"
          key := some key
          cert := certs.head?
          cas := if 1 < certs.length then some certs.tail else none
          encryption := .bestAvailable pfx_password }

/-- The recovered key re-encoded by
`private_bytes(PEM, PKCS8, NoEncryption())`: the PKCS#8 PEM serialization of
the key value (deterministic and injective in the key). -/
inductive KeyPem (K : Type) where
  | pkcs8 (k : K)
deriving DecidableEq

inductive ExtractErr where
  | decryptionFailed
  | noPrivateKey
deriving DecidableEq

/-- The password argument `extract_key` hands the loader:
`password.encode() if password else None` — the empty string is falsy, so it
becomes `None` (no password at all). -/
def extract_pwd_arg (password : String) : Option String :=
  if password = "" then none else some password

/-- Model of `extract_key` (lines 1061-1107) on in-memory container bytes. -/
def extract_key {K C : Type} (c : Pkcs12Container K C) (password : String) :
    Except ExtractErr (KeyPem K) :=
  match load_key_and_certificates c (extract_pwd_arg password) with
  | .error _ => .error .decryptionFailed
  | .ok (none, _, _) => .error .noPrivateKey
  | .ok (some k, _, _) => .ok (.pkcs8 k)

/-- C5: with an empty container passphrase `create_pfx_advanced` fails with
`MissingPassphrase` and produces no container; with a non-empty passphrase
every container it produces is serialized under
`BestAvailableEncryption` of that (non-empty) passphrase — an unprotected
container is never produced. -/
theorem c5_empty_passphrase_refused {K C : Type} (key : K) (certs : List C) :
    create_pfx_advanced key certs "" = .error .missingPassphrase ∧
    (∀ p cont, create_pfx_advanced key certs p = .ok cont →
      cont.encryption = .bestAvailable p ∧ p ≠ "") := by
  constructor
  · simp [create_pfx_advanced]
  · intro p cont h
    unfold create_pfx_advanced at h
    rcases em (p = "") with hp | hp
    · simp [hp] at h
    · rcases em (certs.isEmpty = true) with hc | hc <;> simp [hp, hc] at h
      exact ⟨h ▸ rfl, hp⟩

/-- Witness for C5: a concrete export with passphrase "secret" is protected
under it, and the same export with "" is refused. -/
theorem c5_empty_passphrase_refused_witness :
    create_pfx_advanced (K := Nat) (C := Nat) 1 [2] "" =
      .error .missingPassphrase ∧
    ((⟨"SSL Certificate", some 1, some 2, none,
        .bestAvailable "secret"⟩ : Pkcs12Container Nat Nat).encryption =
          .bestAvailable "secret" ∧ "secret" ≠ "") :=
  ⟨(c5_empty_passphrase_refused 1 [2]).1,
   (c5_empty_passphrase_refused 1 [2]).2 "secret" _ rfl⟩

/-- C6: for every key, leaf, CA list and non-empty passphrase, extracting
from the container built under that passphrase with the same passphrase
recovers the key, re-encoded to PKCS#8 PEM — the same bytes the original key
normalizes to under that encoding. -/
theorem c6_pfx_roundtrip {K C : Type} (key : K) (leaf : C) (cas : List C)
    (p : String) (cont : Pkcs12Container K C) (hp : p ≠ "")
    (hbuild : create_pfx_advanced key (leaf :: cas) p = .ok cont) :
    extract_key cont p = .ok (.pkcs8 key) := by
  unfold create_pfx_advanced at hbuild
  rcases em (p = "") with h | h
  · exact absurd h hp
  · simp [h] at hbuild
    subst hbuild
    unfold extract_key load_key_and_certificates extract_pwd_arg normalizePwd
    simp [h]

/-- Witness for C6 at a concrete key, chain and passphrase. -/
theorem c6_pfx_roundtrip_witness :
    extract_key ⟨"SSL Certificate", some 7, some 2, some [3],
        .bestAvailable "hunter2"⟩ "hunter2" = .ok (KeyPem.pkcs8 7) :=
  c6_pfx_roundtrip (K := Nat) (C := Nat) 7 2 [3] "hunter2" _
    (by decide) rfl

/-- C10: `extract_key` maps the empty-string passphrase to no password at all
(`None`) before calling the loader, and consequently a container protected
under a literal empty-string password and one requiring no password behave
identically through `extract_key` — for every supplied passphrase, not just
the empty one. -/
theorem c10_empty_passphrase_is_none {K C : Type} (name : String)
    (key : Option K) (cert : Option C) (cas : Option (List C))
    (password : String) :
    extract_pwd_arg "" = none ∧
    extract_key (⟨name, key, cert, cas, .bestAvailable ""⟩ :
        Pkcs12Container K C) password =
      extract_key (⟨name, key, cert, cas, .noEncryption⟩ :
        Pkcs12Container K C) password := by
  constructor
  · rfl
  · unfold extract_key load_key_and_certificates normalizePwd
    simp

end AioSsl
